import Mathlib

/-!
Shallow embedding of the distributed chunked file-upload subsystem of the
For-in-share repository (client/src/components/distributed-file-uploader.tsx
and client/src/components/file-upload.tsx), together with theorems checking
the specification's claims about it.

JavaScript numbers are modelled as `Nat` where the source uses them as
counters/byte counts and as `Rat` (exact rational arithmetic) where the
source performs fractional arithmetic (server scores, progress percentages).
JavaScript `Array.prototype.sort` with comparator `(a, b) => b.score - a.score`
is a stable descending sort, so `sortedList[0]` is the first element of the
input attaining the maximal score; `pickFirstMax` computes exactly that.
-/

namespace DistUpload

/-- 4 MiB chunk size (`const CHUNK_SIZE = 4 * 1024 * 1024`). -/
def CHUNK_SIZE : Nat := 4 * 1024 * 1024

/-- `const MAX_CONCURRENT_UPLOADS = 20`. -/
def MAX_CONCURRENT_UPLOADS : Nat := 20

/-- `const SERVER_SELECTION_TIMEOUT = 30000` (milliseconds). -/
def SERVER_SELECTION_TIMEOUT : Nat := 30000

/-- `const MAX_RETRIES = 3`. -/
def MAX_RETRIES : Nat := 3

/-- Interval between polls in `waitForCapableServer` (`setTimeout(resolve, 2000)`). -/
def POLL_INTERVAL : Nat := 2000

/-- `const MAX_FILE_SIZE = 10 * 1024 * 1024` (both entry points). -/
def MAX_FILE_SIZE : Nat := 10 * 1024 * 1024

/-- `capabilities` field of an `UploadServer` (interface UploadServer). -/
structure ServerCapabilities where
  maxChunkSize : Nat
  supportedFormats : List String
  dropboxAccounts : Nat
  freeSpace : Nat
deriving Repr, DecidableEq

/-- `interface UploadServer` from distributed-file-uploader.tsx. -/
structure UploadServer where
  id : String
  url : String
  isActive : Bool
  currentLoad : Nat
  maxLoad : Nat
  region : String
  capabilities : ServerCapabilities
  responseTime : Rat
  successRate : Rat
deriving Repr, DecidableEq

/-- The `requirements` argument of `findOptimalServer`. All fields are
optional in the source; absent `excludeServers` behaves as the empty list
(`requirements.excludeServers?.includes(...)`). -/
structure Requirements where
  minFreeSpace : Option Nat := none
  preferredRegion : Option String := none
  excludeServers : List String := []
deriving Repr, DecidableEq

/-- The filter inside `findOptimalServer`: inactive servers, servers at or
above max load, servers with too small a max chunk size, servers lacking the
required free space, and excluded servers are dropped.  The free-space test
mirrors JavaScript truthiness: `requirements.minFreeSpace && ...` skips the
test when `minFreeSpace` is absent or `0`. -/
def passesFilter (chunkSize : Nat) (req : Requirements) (s : UploadServer) : Bool :=
  s.isActive &&
  decide (s.currentLoad < s.maxLoad) &&
  decide (chunkSize ≤ s.capabilities.maxChunkSize) &&
  (match req.minFreeSpace with
   | none => true
   | some m => decide (m = 0) || decide (m ≤ s.capabilities.freeSpace)) &&
  !(req.excludeServers.contains s.id)

/-- The weighted score computed for each remaining candidate in
`findOptimalServer`: load headroom x40, capped inverse response time x30,
success rate x20, capped free-space magnitude (in GiB) x10, plus 15 for a
regional match.  The regional test mirrors JavaScript truthiness
(`requirements.preferredRegion && ...`): an empty preferred region gives no
bonus. -/
def serverScore (req : Requirements) (s : UploadServer) : Rat :=
  (1 - (s.currentLoad : Rat) / (s.maxLoad : Rat)) * 40
  + max 0 ((1000 - s.responseTime) / 1000) * 30
  + s.successRate * 20
  + min ((s.capabilities.freeSpace : Rat) / ((1024 : Rat) * 1024 * 1024)) 10 * 10
  + (match req.preferredRegion with
     | none => 0
     | some r => if r ≠ "" ∧ s.region = r then 15 else 0)

/-- First element of the list attaining the strictly maximal value of `f`:
the result of a stable descending sort by `f` followed by taking index 0,
which is what `scoredServers.sort((a, b) => b.score - a.score)` followed by
`scoredServers[0]` computes. -/
def pickFirstMax (f : UploadServer → Rat) : List UploadServer → Option UploadServer
  | [] => none
  | s :: rest =>
    match pickFirstMax f rest with
    | none => some s
    | some t => if f s < f t then some t else some s

/-- The `availableServers` intermediate list of `findOptimalServer`. -/
def availableServers (servers : List UploadServer) (chunkSize : Nat)
    (req : Requirements) : List UploadServer :=
  servers.filter (passesFilter chunkSize req)

/-- `findOptimalServer(chunkSize, requirements)`: filter, return `null` when
no candidate remains, otherwise score, sort descending (stably) and return
the first. -/
def findOptimalServer (servers : List UploadServer) (chunkSize : Nat)
    (req : Requirements) : Option UploadServer :=
  let available := availableServers servers chunkSize req
  if available.isEmpty then none
  else pickFirstMax (serverScore req) available

/-- Per-chunk upload status values (`ChunkUploadStatus.status`). -/
inductive ChunkStatus where
  | pending
  | uploading
  | completed
  | failed
  | waiting
deriving Repr, DecidableEq

/-- Session status values (`FileUploadState.status`). -/
inductive SessionStatus where
  | preparing
  | distributing
  | uploading
  | completed
  | failed
deriving Repr, DecidableEq

/-- `Math.ceil(file.size / CHUNK_SIZE)` on exact arithmetic. -/
def totalChunksOf (n : Nat) : Nat :=
  if n % CHUNK_SIZE = 0 then n / CHUNK_SIZE else n / CHUNK_SIZE + 1

/-- `const start = i * CHUNK_SIZE` in the batch loop of `handleFileUpload`. -/
def chunkStart (i : Nat) : Nat := i * CHUNK_SIZE

/-- `const end = Math.min(start + CHUNK_SIZE, file.size)`. -/
def chunkEnd (n i : Nat) : Nat := min (chunkStart i + CHUNK_SIZE) n

/-- Size of the blob `file.slice(start, end)` for chunk `i` of an `n`-byte file. -/
def chunkSizeAt (n i : Nat) : Nat := chunkEnd n i - chunkStart i

/-- The list of chunk sizes a file of `n` bytes is split into. -/
def chunkSizes (n : Nat) : List Nat :=
  (List.range (totalChunksOf n)).map (chunkSizeAt n)

/-- `interface ChunkUploadStatus` (fields relevant to the claims). -/
structure ChunkUploadStatus where
  chunkIndex : Nat
  status : ChunkStatus
  progress : Rat
  attempts : Nat
  error : Option String := none
  serverId : Option String := none
deriving Repr, DecidableEq

/-- `interface FileUploadState` (fields relevant to the claims). -/
structure FileUploadState where
  fileName : String
  totalSize : Nat
  chunkSize : Nat
  totalChunks : Nat
  chunks : List ChunkUploadStatus
  overallProgress : Rat
  status : SessionStatus
deriving Repr, DecidableEq

/-- The `uploadState` record built by `handleFileUpload` after the size
check: `totalChunks = Math.ceil(file.size / CHUNK_SIZE)` and one pending
chunk descriptor per index `0..totalChunks-1`. -/
def initUploadState (fileName : String) (fileSize : Nat) : FileUploadState :=
  { fileName := fileName
    totalSize := fileSize
    chunkSize := CHUNK_SIZE
    totalChunks := totalChunksOf fileSize
    chunks := (List.range (totalChunksOf fileSize)).map (fun i =>
      { chunkIndex := i, status := .pending, progress := 0, attempts := 0 })
    overallProgress := 0
    status := .preparing }

/-- The guards at the top of `handleFileUpload`: with no servers loaded, or
with `file.size > MAX_FILE_SIZE`, the function alerts and returns before any
upload state is created; otherwise the fresh upload state is installed.  The
returned Bool records whether the upload proceeds (chunks get dispatched). -/
def handleFileUploadInit (servers : List UploadServer)
    (prev : Option FileUploadState) (fileName : String) (fileSize : Nat) :
    Option FileUploadState × Bool :=
  if servers.isEmpty then (prev, false)
  else if MAX_FILE_SIZE < fileSize then (prev, false)
  else (some (initUploadState fileName fileSize), true)

/-- The size guard of `handleFileSelect` in file-upload.tsx: a file larger
than `MAX_FILE_SIZE` is rejected (the input is cleared and no file is
selected); otherwise it becomes the selected file. -/
def handleFileSelect (fileSize : Nat) : Option Nat :=
  if MAX_FILE_SIZE < fileSize then none else some fileSize

/-- `prev.chunks.filter(c => c.status === 'completed').length`. -/
def completedCount (statuses : List ChunkStatus) : Nat :=
  (statuses.filter (fun c => c = ChunkStatus.completed)).length

/-- `overallProgress = (completedChunks / newChunks.length) * 100` computed
by `updateChunkStatus` after every chunk state update. -/
def overallProgress (statuses : List ChunkStatus) : Rat :=
  ((completedCount statuses : Rat) / (statuses.length : Rat)) * 100

/-- `const finalStatus = completedChunks === totalChunks ? 'completed' : 'failed'`
from the end of `handleFileUpload`. -/
def sessionFinalStatus (statuses : List ChunkStatus) (totalChunks : Nat) :
    SessionStatus :=
  if completedCount statuses = totalChunks then .completed else .failed

/-- `waitForCapableServer`: repeatedly look for an optimal server, refreshing
the registry between polls, until a candidate appears or the snapshots run
out.  The real loop is bounded by `SERVER_SELECTION_TIMEOUT` (30 s) with a
`POLL_INTERVAL` (2 s) sleep per iteration; here the finite list of registry
snapshots models the polls that fit inside the timeout, and an exhausted list
models the timeout elapsing (`return null; // Timeout`). -/
def waitForCapableServer (snapshots : List (List UploadServer))
    (chunkSize : Nat) (req : Requirements) : Option UploadServer :=
  match snapshots with
  | [] => none
  | reg :: rest =>
    match findOptimalServer reg chunkSize req with
    | some s => some s
    | none => waitForCapableServer rest chunkSize req

/-- The requirements `processChunk` passes to server selection:
`minFreeSpace: chunkData.size * 2` and the chunk's exclusion set. -/
def chunkRequirements (chunkSize : Nat) (excluded : List String) : Requirements :=
  { minFreeSpace := some (chunkSize * 2), preferredRegion := none,
    excludeServers := excluded }

/-- Observable outcome of one `processChunk` run: final chunk status, final
attempt counter, final error, the exclusion set built up, every dispatch
`(attempt, serverId)` performed, the failed dispatches among them, and the
backoff waits (in ms) performed between retries. -/
structure ProcessResult where
  status : ChunkStatus
  attempts : Nat
  error : Option String
  excluded : List String
  dispatches : List (Nat × String)
  failures : List (Nat × String)
  backoffs : List Nat
deriving Repr, DecidableEq

/-- The retry loop of `processChunk` (`while (attempts < MAX_RETRIES)`),
written as fuel recursion with `fuel = MAX_RETRIES - attempts`.  Each
iteration increments the attempt counter, selects a server excluding the
chunk's failed servers (falling back to `waitForCapableServer`, whose poll
snapshots for attempt `a` are `registry :: waitPolls a`), gives up with a
"No capable server available" failure when none is found, otherwise
dispatches; `outcome a sid` tells whether the dispatch of attempt `a` to
server `sid` succeeds.  On failure the server is added to the exclusion set
and, when attempts remain (`attempts < MAX_RETRIES`), a linear backoff of
`1000 * attempts` ms is taken before retrying.  Exhausted fuel is the loop
exiting with every attempt failed. -/
def processChunkAux (registry : List UploadServer)
    (waitPolls : Nat → List (List UploadServer))
    (outcome : Nat → String → Bool) (chunkSize : Nat) :
    Nat → Nat → List String → List (Nat × String) → List (Nat × String) →
    List Nat → ProcessResult
  | 0, attempts, excluded, dispatches, failures, backoffs =>
    { status := .failed, attempts := attempts,
      error := some "Failed after 3 attempts",
      excluded := excluded, dispatches := dispatches, failures := failures,
      backoffs := backoffs }
  | fuel + 1, attempts, excluded, dispatches, failures, backoffs =>
    match (match findOptimalServer registry chunkSize
            (chunkRequirements chunkSize excluded) with
        | some s => some s
        | none => waitForCapableServer (registry :: waitPolls (attempts + 1))
            chunkSize (chunkRequirements chunkSize excluded)) with
    | none =>
      { status := .failed, attempts := attempts + 1,
        error := some "No capable server available",
        excluded := excluded, dispatches := dispatches, failures := failures,
        backoffs := backoffs }
    | some s =>
      if outcome (attempts + 1) s.id then
        { status := .completed, attempts := attempts + 1, error := none,
          excluded := excluded,
          dispatches := dispatches ++ [(attempts + 1, s.id)],
          failures := failures, backoffs := backoffs }
      else
        processChunkAux registry waitPolls outcome chunkSize fuel (attempts + 1)
          (excluded ++ [s.id]) (dispatches ++ [(attempts + 1, s.id)])
          (failures ++ [(attempts + 1, s.id)])
          (if attempts + 1 < MAX_RETRIES then backoffs ++ [1000 * (attempts + 1)]
           else backoffs)

/-- `processChunk` starting from `attempts = 0`, `excludeServers = []`. -/
def processChunk (registry : List UploadServer)
    (waitPolls : Nat → List (List UploadServer))
    (outcome : Nat → String → Bool) (chunkSize : Nat) : ProcessResult :=
  processChunkAux registry waitPolls outcome chunkSize MAX_RETRIES 0 [] [] [] []

/-- Modelled from the spec: the server-side chunk production on resume is not
part of the client sources; the spec requires producing only the chunks *not
yet completed*, driven by the Ledger's set of completed chunk indices. -/
def resumeChunks (totalChunks : Nat) (completedIdx : List Nat) : List Nat :=
  (List.range totalChunks).filter (fun i => !(completedIdx.contains i))

/-- Modelled from the spec: a row of the `partial_uploads` table (schema in
the shared drizzle schema file): whole-file checksum, declared total size,
chunk count and the set of completed chunk indices. -/
structure LedgerEntry where
  checksum : String
  fileSize : Nat
  totalChunks : Nat
  completedIdx : List Nat
deriving Repr, DecidableEq

/-- Outcome of matching a resume request against the Ledger. -/
inductive ResumeDecision where
  | noEntry
  | resume (e : LedgerEntry)
  | reject
deriving Repr, DecidableEq

/-- Modelled from the spec: the server-side resume check is not part of the
client sources; the spec requires that a ledger entry is matched to a resume
request only when the request's checksum and total size both match exactly,
and that a checksum match with differing size is rejected, not silently
resumed. -/
def checkResume (entries : List LedgerEntry) (checksum : String) (size : Nat) :
    ResumeDecision :=
  match entries.find? (fun e => e.checksum == checksum) with
  | none => .noEntry
  | some e => if e.fileSize = size then .resume e else .reject

/-- A healthy concrete server used by witnesses and scenarios. -/
def srvA : UploadServer :=
  { id := "A", url := "http://a", isActive := true, currentLoad := 0,
    maxLoad := 1, region := "r",
    capabilities := { maxChunkSize := 100, supportedFormats := [],
                      dropboxAccounts := 1, freeSpace := 1024 * 1024 * 1024 },
    responseTime := 0, successRate := 3 }

/-- Like `srvA` but with a lower success rate, so it scores lower. -/
def srvB : UploadServer := { srvA with id := "B", successRate := 2 }

/-- Like `srvA` but with the lowest success rate of the three. -/
def srvC : UploadServer := { srvA with id := "C", successRate := 1 }

/-- A server with load 2 of 4: the same load headroom fraction as `tieB` and
an identical score, but a strictly higher current load. -/
def tieA : UploadServer :=
  { srvA with id := "a", currentLoad := 2, maxLoad := 4, successRate := 1 }

/-- A server with load 1 of 2: ties with `tieA` on score with a lower load. -/
def tieB : UploadServer :=
  { srvA with id := "b", currentLoad := 1, maxLoad := 2, successRate := 1 }

/-- Scenario: no registry refresh ever produces new servers. -/
def scenPolls : Nat → List (List UploadServer) := fun _ => []

/-- Scenario: every dispatch fails except on the third attempt. -/
def scenOutcome : Nat → String → Bool := fun a _ => a == 3

/-- Scenario run for claim C5: three capable servers, the first two dispatch
attempts fail (on the two best-scoring servers), the third succeeds. -/
def scenRun : ProcessResult :=
  processChunk [srvA, srvB, srvC] scenPolls scenOutcome 4

/-- Run in which every dispatch fails, exhausting the retry ceiling. -/
def failRun : ProcessResult :=
  processChunk [srvA, srvB, srvC] scenPolls (fun _ _ => false) 4

theorem pickFirstMax_eq_none (f : UploadServer → Rat) (xs : List UploadServer)
    (h : pickFirstMax f xs = none) : xs = [] := by
  cases xs with
  | nil => rfl
  | cons x rest =>
    exfalso
    cases h' : pickFirstMax f rest with
    | none => simp [pickFirstMax, h'] at h
    | some t =>
      simp only [pickFirstMax, h'] at h
      by_cases hc : f x < f t
      · rw [if_pos hc] at h; exact Option.noConfusion h
      · rw [if_neg hc] at h; exact Option.noConfusion h

theorem pickFirstMax_spec (f : UploadServer → Rat) (xs : List UploadServer) :
    ∀ s, pickFirstMax f xs = some s →
      ∃ pre post, xs = pre ++ s :: post ∧
        (∀ t ∈ pre, f t < f s) ∧ (∀ t ∈ post, f t ≤ f s) := by
  induction xs with
  | nil => intro s h; simp [pickFirstMax] at h
  | cons x rest ih =>
    intro s h
    cases hr : pickFirstMax f rest with
    | none =>
      simp only [pickFirstMax, hr] at h
      cases h
      refine ⟨[], rest, rfl, by simp, ?_⟩
      rw [pickFirstMax_eq_none f rest hr]
      simp
    | some t =>
      simp only [pickFirstMax, hr] at h
      obtain ⟨pre, post, hsplit, hpre, hpost⟩ := ih t hr
      by_cases hc : f x < f t
      · rw [if_pos hc] at h
        cases h
        refine ⟨x :: pre, post, by rw [hsplit]; rfl, ?_, hpost⟩
        intro u hu
        rcases List.mem_cons.mp hu with hu | hu
        · rw [hu]; exact hc
        · exact hpre u hu
      · rw [if_neg hc] at h
        cases h
        refine ⟨[], rest, rfl, by simp, ?_⟩
        intro u hu
        have hxt : f t ≤ f x := not_lt.mp hc
        rw [hsplit] at hu
        rcases List.mem_append.mp hu with hu | hu
        · exact le_of_lt (lt_of_lt_of_le (hpre u hu) hxt)
        · rcases List.mem_cons.mp hu with hu | hu
          · rw [hu]; exact hxt
          · exact le_trans (hpost u hu) hxt

theorem pickFirstMax_mem (f : UploadServer → Rat) (xs : List UploadServer)
    (s : UploadServer) (h : pickFirstMax f xs = some s) : s ∈ xs := by
  obtain ⟨pre, post, hsplit, _, _⟩ := pickFirstMax_spec f xs s h
  rw [hsplit]
  simp

theorem pickFirstMax_maximal (f : UploadServer → Rat) (xs : List UploadServer)
    (s : UploadServer) (h : pickFirstMax f xs = some s) :
    ∀ t ∈ xs, f t ≤ f s := by
  obtain ⟨pre, post, hsplit, hpre, hpost⟩ := pickFirstMax_spec f xs s h
  intro t ht
  rw [hsplit] at ht
  rcases List.mem_append.mp ht with ht | ht
  · exact le_of_lt (hpre t ht)
  · rcases List.mem_cons.mp ht with ht | ht
    · rw [ht]
    · exact hpost t ht

theorem findOptimalServer_eq_pick (servers : List UploadServer) (chunkSize : Nat)
    (req : Requirements) (s : UploadServer)
    (h : findOptimalServer servers chunkSize req = some s) :
    pickFirstMax (serverScore req) (availableServers servers chunkSize req) = some s := by
  rw [findOptimalServer] at h
  by_cases he : (availableServers servers chunkSize req).isEmpty
  · rw [if_pos he] at h; exact Option.noConfusion h
  · rwa [if_neg he] at h

theorem findOptimalServer_mem (servers : List UploadServer) (chunkSize : Nat)
    (req : Requirements) (s : UploadServer)
    (h : findOptimalServer servers chunkSize req = some s) :
    s ∈ availableServers servers chunkSize req ∧ passesFilter chunkSize req s = true := by
  have hm := pickFirstMax_mem _ _ _ (findOptimalServer_eq_pick servers chunkSize req s h)
  exact ⟨hm, (List.mem_filter.mp hm).2⟩

theorem passesFilter_spec (chunkSize : Nat) (req : Requirements) (s : UploadServer)
    (h : passesFilter chunkSize req s = true) :
    s.isActive = true ∧ s.currentLoad < s.maxLoad ∧
    chunkSize ≤ s.capabilities.maxChunkSize ∧
    (∀ m, req.minFreeSpace = some m → m ≤ s.capabilities.freeSpace) ∧
    s.id ∉ req.excludeServers := by
  rw [passesFilter] at h
  simp only [Bool.and_eq_true, Bool.not_eq_true', decide_eq_true_eq] at h
  obtain ⟨⟨⟨⟨hact, hload⟩, hchunk⟩, hfree⟩, hexcl⟩ := h
  refine ⟨hact, hload, hchunk, ?_, ?_⟩
  · intro m hm
    rw [hm] at hfree
    simp only [Bool.or_eq_true, decide_eq_true_eq] at hfree
    rcases hfree with hfree | hfree
    · omega
    · exact hfree
  · intro hmem
    simp at hexcl
    exact hexcl hmem

theorem sum_chunkSizes_range (n : Nat) :
    ∀ k, ((List.range k).map (chunkSizeAt n)).sum = min (k * CHUNK_SIZE) n := by
  intro k
  induction k with
  | zero => simp
  | succ k ih =>
    rw [List.range_succ, List.map_append, List.sum_append, ih]
    simp only [List.map_cons, List.map_nil, List.sum_cons, List.sum_nil,
      chunkSizeAt, chunkEnd, chunkStart, Nat.succ_mul]
    omega

theorem le_totalChunks_mul (n : Nat) : n ≤ totalChunksOf n * CHUNK_SIZE := by
  simp only [totalChunksOf, CHUNK_SIZE]
  split <;> omega

theorem totalChunks_mul_lt (n i : Nat) (h : i < totalChunksOf n) :
    i * CHUNK_SIZE < n := by
  simp only [totalChunksOf, CHUNK_SIZE] at h ⊢
  split at h <;> omega

theorem waitForCapableServer_none (chunkSize : Nat) (req : Requirements) :
    ∀ snapshots : List (List UploadServer),
      (∀ reg ∈ snapshots, findOptimalServer reg chunkSize req = none) →
      waitForCapableServer snapshots chunkSize req = none := by
  intro snapshots
  induction snapshots with
  | nil => intro _; rfl
  | cons reg rest ih =>
    intro h
    rw [waitForCapableServer, h reg (by simp)]
    exact ih (fun r hr => h r (by simp [hr]))

theorem processChunkAux_spec (registry : List UploadServer)
    (waitPolls : Nat → List (List UploadServer)) (outcome : Nat → String → Bool)
    (chunkSize : Nat) :
    ∀ (fuel attempts : Nat) (excluded : List String)
      (dispatches failures : List (Nat × String)) (backoffs : List Nat),
      ∃ dD dF : List (Nat × String),
        (processChunkAux registry waitPolls outcome chunkSize fuel attempts
            excluded dispatches failures backoffs).dispatches = dispatches ++ dD ∧
        (processChunkAux registry waitPolls outcome chunkSize fuel attempts
            excluded dispatches failures backoffs).failures = failures ++ dF ∧
        (processChunkAux registry waitPolls outcome chunkSize fuel attempts
            excluded dispatches failures backoffs).excluded =
          excluded ++ dF.map Prod.snd ∧
        (processChunkAux registry waitPolls outcome chunkSize fuel attempts
            excluded dispatches failures backoffs).backoffs =
          backoffs ++ (dF.filter (fun p => decide (p.1 < MAX_RETRIES))).map
            (fun p => 1000 * p.1) ∧
        dD.map Prod.fst = List.range' (attempts + 1) dD.length ∧
        dF.length ≤ fuel ∧
        (dF.length = fuel →
          (processChunkAux registry waitPolls outcome chunkSize fuel attempts
              excluded dispatches failures backoffs).status = .failed ∧
          (processChunkAux registry waitPolls outcome chunkSize fuel attempts
              excluded dispatches failures backoffs).error =
            some "Failed after 3 attempts" ∧
          (processChunkAux registry waitPolls outcome chunkSize fuel attempts
              excluded dispatches failures backoffs).attempts = attempts + fuel) := by
  intro fuel
  induction fuel with
  | zero =>
    intro attempts excluded dispatches failures backoffs
    exact ⟨[], [], by simp [processChunkAux], by simp [processChunkAux],
      by simp [processChunkAux], by simp [processChunkAux], by simp,
      by simp, fun _ => ⟨rfl, rfl, by simp [processChunkAux]⟩⟩
  | succ fuel ih =>
    intro attempts excluded dispatches failures backoffs
    rw [processChunkAux]
    cases hs : (match findOptimalServer registry chunkSize
        (chunkRequirements chunkSize excluded) with
      | some s => some s
      | none => waitForCapableServer
          (registry :: waitPolls (attempts + 1)) chunkSize
          (chunkRequirements chunkSize excluded)) with
    | none =>
      refine ⟨[], [], by simp [hs], by simp [hs], by simp [hs], by simp [hs],
        by simp, by simp, fun hlen => absurd hlen (by simp)⟩
    | some s =>
      cases ho : outcome (attempts + 1) s.id with
      | true =>
        refine ⟨[(attempts + 1, s.id)], [], by simp [hs, ho], by simp [hs, ho],
          by simp [hs, ho], by simp [hs, ho], by simp [List.range'], by simp,
          fun hlen => absurd hlen (by simp)⟩
      | false =>
        obtain ⟨dD, dF, h1, h2, h3, h4, h5, h6, h7⟩ :=
          ih (attempts + 1) (excluded ++ [s.id]) (dispatches ++ [(attempts + 1, s.id)])
            (failures ++ [(attempts + 1, s.id)])
            (if attempts + 1 < MAX_RETRIES then backoffs ++ [1000 * (attempts + 1)]
             else backoffs)
        refine ⟨(attempts + 1, s.id) :: dD, (attempts + 1, s.id) :: dF, ?_, ?_, ?_, ?_,
          ?_, ?_, ?_⟩
        · simp only [hs, ho, Bool.false_eq_true, if_false]
          rw [h1]
          simp
        · simp only [hs, ho, Bool.false_eq_true, if_false]
          rw [h2]
          simp
        · simp only [hs, ho, Bool.false_eq_true, if_false]
          rw [h3]
          simp
        · simp only [hs, ho, Bool.false_eq_true, if_false]
          rw [h4, List.filter_cons]
          by_cases hlt : attempts + 1 < MAX_RETRIES
          · simp [hlt]
          · simp [hlt]
        · simp only [List.map_cons, List.length_cons, h5, List.range']
        · simp only [List.length_cons]
          omega
        · intro hlen
          simp only [List.length_cons] at hlen
          have hfl : dF.length = fuel := by omega
          obtain ⟨ha, hb, hc⟩ := h7 hfl
          simp only [hs, ho, Bool.false_eq_true, if_false]
          exact ⟨ha, hb, by rw [hc]; omega⟩

theorem completedCount_le (l : List ChunkStatus) : completedCount l ≤ l.length :=
  List.length_filter_le _ l

theorem completedCount_eq_length_iff (l : List ChunkStatus) :
    completedCount l = l.length ↔ ∀ c ∈ l, c = ChunkStatus.completed := by
  rw [completedCount, List.filter_length_eq_length]
  constructor
  · intro h c hc
    simpa using h c hc
  · intro h c hc
    simpa using h c hc

theorem completedCount_lt_of_mem (l : List ChunkStatus) (c : ChunkStatus)
    (hc : c ∈ l) (hne : c ≠ ChunkStatus.completed) : completedCount l < l.length := by
  rcases Nat.lt_or_ge (completedCount l) l.length with h | h
  · exact h
  · exfalso
    have heq : completedCount l = l.length :=
      Nat.le_antisymm (completedCount_le l) h
    exact hne ((completedCount_eq_length_iff l).mp heq c hc)

/-- C1: for every file accepted for upload, the upload initializer produces
`totalChunks = ceil(totalSize / 4 MiB)` chunk descriptors with 0-based
contiguous indices `0..totalChunks-1`, byte ranges
`[i*4MiB, min((i+1)*4MiB, totalSize))` that are disjoint and contiguous, and
chunk sizes summing exactly to the file's total size; in particular a 10 MiB
file yields 3 chunks of sizes 4 MiB, 4 MiB and 2 MiB. -/
theorem chunker_spec :
    (∀ (name : String) (n : Nat),
      (initUploadState name n).totalChunks = totalChunksOf n ∧
      (initUploadState name n).chunks.map (fun c => c.chunkIndex) =
        List.range (totalChunksOf n) ∧
      (∀ i, chunkStart i = i * CHUNK_SIZE ∧
        chunkEnd n i = min ((i + 1) * CHUNK_SIZE) n) ∧
      (∀ i, i + 1 < totalChunksOf n → chunkEnd n i = chunkStart (i + 1)) ∧
      (∀ i, i < totalChunksOf n → chunkStart i < chunkEnd n i ∧ chunkEnd n i ≤ n) ∧
      (chunkSizes n).sum = n) ∧
    chunkSizes (10 * 1024 * 1024) =
      [4 * 1024 * 1024, 4 * 1024 * 1024, 2 * 1024 * 1024] := by
  constructor
  · intro name n
    refine ⟨rfl, ?_, ?_, ?_, ?_, ?_⟩
    · simp only [initUploadState, List.map_map]
      have : ((fun (c : ChunkUploadStatus) => c.chunkIndex) ∘ fun i =>
          ({ chunkIndex := i, status := .pending, progress := 0,
             attempts := 0 } : ChunkUploadStatus)) = fun i => i := by
        funext i
        rfl
      rw [this]
      simp
    · intro i
      exact ⟨rfl, by simp [chunkEnd, chunkStart, Nat.succ_mul]⟩
    · intro i hi
      have h := totalChunks_mul_lt n (i + 1) hi
      rw [Nat.succ_mul] at h
      simp only [chunkEnd, chunkStart, Nat.succ_mul]
      omega
    · intro i hi
      have h1 := totalChunks_mul_lt n i hi
      have hc : (0:Nat) < CHUNK_SIZE := by decide
      simp only [chunkEnd, chunkStart]
      omega
    · rw [chunkSizes, sum_chunkSizes_range]
      have := le_totalChunks_mul n
      omega
  · decide

/-- C1 witness: the general statement applied to the 10 MiB file. -/
theorem chunker_spec_witness :
    chunkEnd 10485760 0 = chunkStart 1 ∧ (chunkSizes 10485760).sum = 10485760 := by
  have h := chunker_spec
  exact ⟨(h.1 "f" 10485760).2.2.2.1 0 (by decide),
    (h.1 "f" 10485760).2.2.2.2.2⟩

/-- C2: a server returned by `findOptimalServer` is never inactive, never at
or above its max load, never declares a max chunk size smaller than the
chunk, never has less than the required free space, and is never in the
exclusion set; when no server passes the filters the function returns `none`
rather than raising an error. -/
theorem scorer_filter_sound :
    (∀ (servers : List UploadServer) (cs : Nat) (req : Requirements)
        (s : UploadServer),
      findOptimalServer servers cs req = some s →
        s.isActive = true ∧ s.currentLoad < s.maxLoad ∧
        cs ≤ s.capabilities.maxChunkSize ∧
        (∀ m, req.minFreeSpace = some m → m ≤ s.capabilities.freeSpace) ∧
        s.id ∉ req.excludeServers) ∧
    (∀ (servers : List UploadServer) (cs : Nat) (req : Requirements),
      availableServers servers cs req = [] →
      findOptimalServer servers cs req = none) := by
  constructor
  · intro servers cs req s h
    exact passesFilter_spec cs req s (findOptimalServer_mem servers cs req s h).2
  · intro servers cs req h
    rw [findOptimalServer, h]
    rfl

/-- C2 witness: the soundness theorem applied to a singleton registry whose
server is selected. -/
theorem scorer_filter_sound_witness :
    srvA.currentLoad < srvA.maxLoad ∧ 4 ≤ srvA.capabilities.maxChunkSize := by
  have h := scorer_filter_sound.1 [srvA] 4 (chunkRequirements 4 []) srvA (by
    simp [findOptimalServer, availableServers, passesFilter, chunkRequirements,
      srvA, pickFirstMax])
  exact ⟨h.2.1, h.2.2.1⟩

/-- C3: `findOptimalServer` returns a candidate maximizing the weighted
score, and for two candidates equal in every factor except success rate the
one with the higher success rate is selected (in either input order). -/
theorem scorer_max :
    (∀ (servers : List UploadServer) (cs : Nat) (req : Requirements)
        (s : UploadServer),
      findOptimalServer servers cs req = some s →
        ∀ t ∈ availableServers servers cs req,
          serverScore req t ≤ serverScore req s) ∧
    (∀ (cs : Nat) (req : Requirements) (s t : UploadServer),
      passesFilter cs req s = true → passesFilter cs req t = true →
      s.currentLoad = t.currentLoad → s.maxLoad = t.maxLoad →
      s.responseTime = t.responseTime →
      s.capabilities.freeSpace = t.capabilities.freeSpace →
      s.region = t.region → t.successRate < s.successRate →
      findOptimalServer [s, t] cs req = some s ∧
      findOptimalServer [t, s] cs req = some s) := by
  constructor
  · intro servers cs req s h
    exact pickFirstMax_maximal _ _ _ (findOptimalServer_eq_pick servers cs req s h)
  · intro cs req s t hs ht hl hml hrt hfs hreg hsr
    have hscore : serverScore req t < serverScore req s := by
      have h20 : t.successRate * 20 < s.successRate * 20 := by
        have h0 : (0:Rat) < 20 := by norm_num
        exact mul_lt_mul_of_pos_right hsr h0
      rw [serverScore, serverScore, ← hl, ← hml, ← hrt, ← hfs, ← hreg]
      cases req.preferredRegion <;> linarith
    have hav1 : availableServers [s, t] cs req = [s, t] := by
      simp [availableServers, List.filter, hs, ht]
    have hav2 : availableServers [t, s] cs req = [t, s] := by
      simp [availableServers, List.filter, hs, ht]
    constructor
    · have hpick : pickFirstMax (serverScore req) [s, t] = some s := by
        simp only [pickFirstMax]
        rw [if_neg (not_lt.mpr (le_of_lt hscore))]
      simp only [findOptimalServer, hav1, List.isEmpty_cons, Bool.false_eq_true,
        if_false]
      exact hpick
    · have hpick : pickFirstMax (serverScore req) [t, s] = some s := by
        simp only [pickFirstMax]
        rw [if_pos hscore]
      simp only [findOptimalServer, hav2, List.isEmpty_cons, Bool.false_eq_true,
        if_false]
      exact hpick

/-- C3 witness: with equal factors and success rates 3 vs 2, the server with
the higher success rate is selected in either input order. -/
theorem scorer_max_witness :
    findOptimalServer [srvA, srvB] 4 (chunkRequirements 4 []) = some srvA ∧
    findOptimalServer [srvB, srvA] 4 (chunkRequirements 4 []) = some srvA := by
  exact scorer_max.2 4 (chunkRequirements 4 []) srvA srvB
    (by simp [passesFilter, chunkRequirements, srvA])
    (by simp [passesFilter, chunkRequirements, srvB, srvA])
    rfl rfl rfl rfl rfl (by norm_num [srvA, srvB])

/-- C4 counterexample: two candidates with exactly equal scores where the
first in the input list has the strictly higher current load; the code still
returns the first-listed server, not the lower-load one, refuting the
claimed load/identifier tie-break. -/
theorem tie_break_counterexample :
    serverScore (chunkRequirements 4 []) tieA =
      serverScore (chunkRequirements 4 []) tieB ∧
    tieB.currentLoad < tieA.currentLoad ∧
    findOptimalServer [tieA, tieB] 4 (chunkRequirements 4 []) = some tieA ∧
    tieA ≠ tieB := by
  have hsc : serverScore (chunkRequirements 4 []) tieA =
      serverScore (chunkRequirements 4 []) tieB := by
    norm_num [serverScore, tieA, tieB, srvA, chunkRequirements, max_def, min_def]
  refine ⟨hsc, by simp [tieA, tieB, srvA], ?_, by simp [tieA, tieB, srvA]⟩
  have hav : availableServers [tieA, tieB] 4 (chunkRequirements 4 []) =
      [tieA, tieB] := by
    simp [availableServers, List.filter, passesFilter, chunkRequirements, tieA,
      tieB, srvA]
  have hpick : pickFirstMax (serverScore (chunkRequirements 4 [])) [tieA, tieB] =
      some tieA := by
    simp only [pickFirstMax]
    rw [if_neg (by rw [hsc]; exact lt_irrefl _)]
  simp only [findOptimalServer, hav, List.isEmpty_cons, Bool.false_eq_true,
    if_false]
  exact hpick

/-- C4 (amended): among equal-score candidates the selection is the earliest
position in the filtered input list (the stable sort preserves input order);
there is no tie-break by current load or by server identifier, and the
selection is deterministic only for a fixed input list order. -/
theorem tie_break_input_order :
    ∀ (servers : List UploadServer) (cs : Nat) (req : Requirements)
      (s : UploadServer),
      findOptimalServer servers cs req = some s →
      ∃ pre post, availableServers servers cs req = pre ++ s :: post ∧
        (∀ t ∈ pre, serverScore req t < serverScore req s) ∧
        (∀ t ∈ post, serverScore req t ≤ serverScore req s) := by
  intro servers cs req s h
  exact pickFirstMax_spec _ _ _ (findOptimalServer_eq_pick servers cs req s h)

/-- C4 witness: the amended theorem applied to the concrete tie. -/
theorem tie_break_input_order_witness :
    ∃ pre post,
      availableServers [tieA, tieB] 4 (chunkRequirements 4 []) =
        pre ++ tieA :: post ∧
      (∀ t ∈ pre, serverScore (chunkRequirements 4 []) t <
        serverScore (chunkRequirements 4 []) tieA) ∧
      (∀ t ∈ post, serverScore (chunkRequirements 4 []) t ≤
        serverScore (chunkRequirements 4 []) tieA) := by
  refine tie_break_input_order [tieA, tieB] 4 (chunkRequirements 4 []) tieA ?_
  have hsc : serverScore (chunkRequirements 4 []) tieA =
      serverScore (chunkRequirements 4 []) tieB := by
    norm_num [serverScore, tieA, tieB, srvA, chunkRequirements, max_def, min_def]
  have hav : availableServers [tieA, tieB] 4 (chunkRequirements 4 []) =
      [tieA, tieB] := by
    simp [availableServers, List.filter, passesFilter, chunkRequirements, tieA,
      tieB, srvA]
  have hpick : pickFirstMax (serverScore (chunkRequirements 4 [])) [tieA, tieB] =
      some tieA := by
    simp only [pickFirstMax]
    rw [if_neg (by rw [hsc]; exact lt_irrefl _)]
  simp only [findOptimalServer, hav, List.isEmpty_cons, Bool.false_eq_true,
    if_false]
  exact hpick

/-- C5: every failed dispatch adds the failing server to the chunk's
exclusion set; a linear backoff of `1000 * attempt` ms is taken after each
failure made with attempts remaining under the retry ceiling; dispatch
attempts are numbered consecutively from 1; at most `MAX_RETRIES` failures
occur, and `MAX_RETRIES` failures leave the chunk permanently failed with
the final attempt count; in the concrete scenario a chunk failing on two
different servers and succeeding on the third attempt ends with
`attempts = 3` and the session still reaches `completed`. -/
theorem processChunk_retry_spec :
    (∀ (registry : List UploadServer)
        (waitPolls : Nat → List (List UploadServer))
        (outcome : Nat → String → Bool) (cs : Nat),
      (processChunk registry waitPolls outcome cs).excluded =
        (processChunk registry waitPolls outcome cs).failures.map Prod.snd ∧
      (processChunk registry waitPolls outcome cs).backoffs =
        ((processChunk registry waitPolls outcome cs).failures.filter
          (fun p => decide (p.1 < MAX_RETRIES))).map (fun p => 1000 * p.1) ∧
      (processChunk registry waitPolls outcome cs).dispatches.map Prod.fst =
        List.range' 1
          (processChunk registry waitPolls outcome cs).dispatches.length ∧
      (processChunk registry waitPolls outcome cs).failures.length ≤
        MAX_RETRIES ∧
      ((processChunk registry waitPolls outcome cs).failures.length =
          MAX_RETRIES →
        (processChunk registry waitPolls outcome cs).status =
          ChunkStatus.failed ∧
        (processChunk registry waitPolls outcome cs).error =
          some "Failed after 3 attempts" ∧
        (processChunk registry waitPolls outcome cs).attempts = MAX_RETRIES)) ∧
    (scenRun.attempts = 3 ∧ scenRun.status = ChunkStatus.completed ∧
      scenRun.failures.map Prod.snd = ["A", "B"] ∧
      scenRun.backoffs = [1000, 2000] ∧
      sessionFinalStatus
        [ChunkStatus.completed, scenRun.status, ChunkStatus.completed] 3 =
        SessionStatus.completed) := by
  constructor
  · intro registry waitPolls outcome cs
    obtain ⟨dD, dF, h1, h2, h3, h4, h5, h6, h7⟩ :=
      processChunkAux_spec registry waitPolls outcome cs MAX_RETRIES 0 [] [] [] []
    rw [processChunk] at *
    refine ⟨?_, ?_, ?_, ?_, ?_⟩
    · rw [h2, h3]; simp
    · rw [h2, h4]; simp
    · rw [h1]; simpa using h5
    · rw [h2]; simpa using h6
    · intro hlen
      rw [h2] at hlen
      simp at hlen
      obtain ⟨ha, hb, hc⟩ := h7 hlen
      exact ⟨ha, hb, by rw [hc]; omega⟩
  · refine ⟨?_, ?_, ?_, ?_, ?_⟩ <;>
    · norm_num [scenRun, processChunk, processChunkAux, findOptimalServer,
        availableServers, passesFilter, chunkRequirements, pickFirstMax,
        serverScore, waitForCapableServer, srvA, srvB, srvC, MAX_RETRIES,
        scenPolls, scenOutcome, sessionFinalStatus, completedCount]
      simp [pickFirstMax, serverScore, passesFilter, srvA, srvB, srvC,
        sessionFinalStatus, completedCount]

/-- C5 witness: the run in which every dispatch fails exhausts the retry
ceiling and the theorem yields the permanent failure. -/
theorem processChunk_retry_spec_witness :
    failRun.status = ChunkStatus.failed ∧ failRun.attempts = 3 := by
  have h := processChunk_retry_spec.1 [srvA, srvB, srvC] scenPolls
    (fun _ _ => false) 4
  have hlen : (processChunk [srvA, srvB, srvC] scenPolls (fun _ _ => false)
      4).failures.length = MAX_RETRIES := by
    norm_num [processChunk, processChunkAux, findOptimalServer,
      availableServers, passesFilter, chunkRequirements, pickFirstMax,
      serverScore, waitForCapableServer, srvA, srvB, srvC, MAX_RETRIES,
      scenPolls]
    simp [pickFirstMax, serverScore, passesFilter, srvA, srvB, srvC]
  obtain ⟨hst, her, hat⟩ := h.2.2.2.2 hlen
  exact ⟨hst, by rw [failRun, hat]; rfl⟩

/-- C6: `waitForCapableServer` polls its registry snapshots and returns no
candidate when every snapshot yields none; a chunk for which no capable
server is found times out, transitions to failed with the "No capable server
available" error, dispatches nothing and is not retried further (its attempt
counter stays at 1); and a session containing a failed chunk ends failed. -/
theorem processChunk_no_capable_server :
    (∀ (snapshots : List (List UploadServer)) (cs : Nat) (req : Requirements),
      (∀ reg ∈ snapshots, findOptimalServer reg cs req = none) →
      waitForCapableServer snapshots cs req = none) ∧
    (∀ (registry : List UploadServer)
        (waitPolls : Nat → List (List UploadServer))
        (outcome : Nat → String → Bool) (cs : Nat),
      findOptimalServer registry cs (chunkRequirements cs []) = none →
      (∀ reg ∈ waitPolls 1,
        findOptimalServer reg cs (chunkRequirements cs []) = none) →
      (processChunk registry waitPolls outcome cs).status =
        ChunkStatus.failed ∧
      (processChunk registry waitPolls outcome cs).error =
        some "No capable server available" ∧
      (processChunk registry waitPolls outcome cs).dispatches = [] ∧
      (processChunk registry waitPolls outcome cs).attempts = 1) ∧
    (∀ statuses : List ChunkStatus, ChunkStatus.failed ∈ statuses →
      sessionFinalStatus statuses statuses.length = SessionStatus.failed) := by
  refine ⟨fun snaps cs req h => waitForCapableServer_none cs req snaps h, ?_, ?_⟩
  · intro registry waitPolls outcome cs h0 h1
    have hwait : waitForCapableServer (registry :: waitPolls 1) cs
        (chunkRequirements cs []) = none := by
      apply waitForCapableServer_none
      intro reg hreg
      rcases List.mem_cons.mp hreg with hreg | hreg
      · rw [hreg]; exact h0
      · exact h1 reg hreg
    have hrun : processChunk registry waitPolls outcome cs =
        { status := .failed, attempts := 1,
          error := some "No capable server available", excluded := [],
          dispatches := [], failures := [], backoffs := [] } := by
      rw [processChunk]
      show processChunkAux registry waitPolls outcome cs (2 + 1) 0 [] [] [] [] = _
      rw [processChunkAux]
      simp [h0, hwait]
    rw [hrun]
    exact ⟨rfl, rfl, rfl, rfl⟩
  · intro statuses hmem
    have hlt := completedCount_lt_of_mem statuses ChunkStatus.failed hmem
      (by decide)
    rw [sessionFinalStatus, if_neg (by omega)]

/-- C6 witness: an empty registry with no refresh snapshots. -/
theorem processChunk_no_capable_server_witness :
    (processChunk [] (fun _ => []) (fun _ _ => false) 4).status =
      ChunkStatus.failed ∧
    (processChunk [] (fun _ => []) (fun _ _ => false) 4).error =
      some "No capable server available" ∧
    (processChunk [] (fun _ => []) (fun _ _ => false) 4).dispatches = [] ∧
    (processChunk [] (fun _ => []) (fun _ _ => false) 4).attempts = 1 := by
  exact processChunk_no_capable_server.2.1 [] (fun _ => []) (fun _ _ => false) 4
    rfl (by simp)

/-- C7: after all chunk tasks settle the session is `completed` if and only
if every chunk is `completed`, and `failed` when any chunk ended `failed`;
the aggregate progress equals `completedChunks / totalChunks * 100`, so a
fully successful session reports 100%. -/
theorem session_completion :
    ∀ (statuses : List ChunkStatus) (total : Nat),
      statuses.length = total →
      ((sessionFinalStatus statuses total = SessionStatus.completed) ↔
        ∀ c ∈ statuses, c = ChunkStatus.completed) ∧
      ((∃ c ∈ statuses, c = ChunkStatus.failed) →
        sessionFinalStatus statuses total = SessionStatus.failed) ∧
      overallProgress statuses =
        ((completedCount statuses : Rat) / (total : Rat)) * 100 ∧
      ((∀ c ∈ statuses, c = ChunkStatus.completed) → statuses ≠ [] →
        overallProgress statuses = 100) := by
  intro statuses total hlen
  refine ⟨?_, ?_, ?_, ?_⟩
  · constructor
    · intro h
      rw [sessionFinalStatus] at h
      by_cases hc : completedCount statuses = total
      · exact (completedCount_eq_length_iff statuses).mp (hc.trans hlen.symm)
      · rw [if_neg hc] at h
        exact absurd h (by decide)
    · intro h
      have hc : completedCount statuses = total := by
        rw [← hlen]
        exact (completedCount_eq_length_iff statuses).mpr h
      rw [sessionFinalStatus, if_pos hc]
  · rintro ⟨c, hc, rfl⟩
    have hlt := completedCount_lt_of_mem statuses ChunkStatus.failed hc
      (by decide)
    rw [sessionFinalStatus, if_neg (by omega)]
  · rw [overallProgress, hlen]
  · intro hall hne
    have hcnt : completedCount statuses = statuses.length :=
      (completedCount_eq_length_iff statuses).mpr hall
    have hnz : statuses.length ≠ 0 := by
      simpa [List.length_eq_zero] using hne
    have hz : (statuses.length : Rat) ≠ 0 := Nat.cast_ne_zero.mpr hnz
    rw [overallProgress, hcnt, div_self hz, one_mul]

/-- C7 witness: a two-chunk session with one failed chunk ends failed. -/
theorem session_completion_witness :
    sessionFinalStatus [ChunkStatus.completed, ChunkStatus.failed] 2 =
      SessionStatus.failed := by
  exact (session_completion [ChunkStatus.completed, ChunkStatus.failed] 2
    rfl).2.1 ⟨ChunkStatus.failed, by simp, rfl⟩

/-- A concrete ledger entry used by witnesses. -/
def ledgerE : LedgerEntry :=
  { checksum := "c", fileSize := 5, totalChunks := 2, completedIdx := [0] }

/-- C8: on resume, no chunk recorded as complete in the Ledger is produced
again; the produced chunks are exactly the not-yet-completed indices below
the chunk count. -/
theorem resume_skips_completed :
    ∀ (totalChunks : Nat) (completedIdx : List Nat) (i : Nat),
      (i ∈ completedIdx → i ∉ resumeChunks totalChunks completedIdx) ∧
      (i ∈ resumeChunks totalChunks completedIdx ↔
        i < totalChunks ∧ i ∉ completedIdx) := by
  intro total completed i
  constructor
  · intro hmem hres
    simp [resumeChunks, List.mem_filter, List.mem_range] at hres
    exact hres.2 hmem
  · simp [resumeChunks, List.mem_filter, List.mem_range]

/-- C8 witness: chunk 1, already complete in the Ledger, is not produced. -/
theorem resume_skips_completed_witness : 1 ∉ resumeChunks 3 [1] :=
  (resume_skips_completed 3 [1] 1).1 (by decide)

/-- C9: a ledger entry is matched to a resume request only when both the
checksum and the declared total size match; a checksum match with a
differing size is rejected, not resumed. -/
theorem resume_size_mismatch_rejected :
    ∀ (entries : List LedgerEntry) (checksum : String) (size : Nat),
      (∀ e, checkResume entries checksum size = ResumeDecision.resume e →
        e.checksum = checksum ∧ e.fileSize = size) ∧
      (∀ e, entries.find? (fun x => x.checksum == checksum) = some e →
        e.fileSize ≠ size →
        checkResume entries checksum size = ResumeDecision.reject) := by
  intro entries checksum size
  constructor
  · intro e h
    cases hf : entries.find? (fun x => x.checksum == checksum) with
    | none =>
      simp only [checkResume, hf] at h
      exact absurd h (by simp)
    | some e2 =>
      simp only [checkResume, hf] at h
      by_cases hsz : e2.fileSize = size
      · rw [if_pos hsz] at h
        cases h
        have hck := List.find?_some hf
        simp at hck
        exact ⟨hck, hsz⟩
      · rw [if_neg hsz] at h
        exact absurd h (by simp)
  · intro e hf hsz
    simp only [checkResume, hf]
    rw [if_neg hsz]

/-- C9 witness: an entry with checksum "c" and size 5 rejects a resume
request with checksum "c" and size 6. -/
theorem resume_size_mismatch_rejected_witness :
    checkResume [ledgerE] "c" 6 = ResumeDecision.reject := by
  exact (resume_size_mismatch_rejected [ledgerE] "c" 6).2 ledgerE
    (by simp [ledgerE]) (by simp [ledgerE])

/-- Accepted files never need more than three 4 MiB chunks. -/
theorem totalChunks_le_three (n : Nat) (h : n ≤ MAX_FILE_SIZE) :
    totalChunksOf n ≤ 3 := by
  simp only [MAX_FILE_SIZE] at h
  simp only [totalChunksOf, CHUNK_SIZE]
  split <;> omega

/-- C10: a file strictly larger than 10 MiB is rejected by both upload entry
points before any session state is created (the previous state is returned
unchanged and nothing is dispatched); consequently every created session has
total size at most 10 MiB, at most 3 chunks, and fits in one concurrency
batch of 20. -/
theorem file_size_limit :
    ∀ (servers : List UploadServer) (prev : Option FileUploadState)
      (name : String) (n : Nat),
      (MAX_FILE_SIZE < n →
        handleFileUploadInit servers prev name n = (prev, false) ∧
        handleFileSelect n = none) ∧
      (∀ st, handleFileUploadInit servers prev name n = (some st, true) →
        st.totalSize = n ∧ st.totalSize ≤ MAX_FILE_SIZE ∧
        st.totalChunks ≤ 3 ∧ st.totalChunks ≤ MAX_CONCURRENT_UPLOADS) := by
  intro servers prev name n
  constructor
  · intro h
    constructor
    · rw [handleFileUploadInit]
      by_cases hse : servers.isEmpty
      · simp [hse]
      · simp [hse, h]
    · rw [handleFileSelect, if_pos h]
  · intro st hinit
    rw [handleFileUploadInit] at hinit
    by_cases hse : servers.isEmpty
    · rw [if_pos hse] at hinit
      simp at hinit
    · rw [if_neg hse] at hinit
      by_cases hsz : MAX_FILE_SIZE < n
      · rw [if_pos hsz] at hinit
        simp at hinit
      · rw [if_neg hsz] at hinit
        have hst : st = initUploadState name n := by
          have := congrArg Prod.fst hinit
          simpa using this.symm
        have hn : n ≤ MAX_FILE_SIZE := not_lt.mp hsz
        rw [hst]
        refine ⟨rfl, hn, totalChunks_le_three n hn, ?_⟩
        have h3 := totalChunks_le_three n hn
        simp only [initUploadState, MAX_CONCURRENT_UPLOADS] at *
        omega

/-- C10 witness: a 10 MiB + 1 byte file is rejected by both entry points. -/
theorem file_size_limit_witness :
    handleFileUploadInit [srvA] none "f" 10485761 = (none, false) ∧
    handleFileSelect 10485761 = none := by
  exact (file_size_limit [srvA] none "f" 10485761).1 (by decide)

end DistUpload
